import Mathlib

/-!
# Audio converter: setup and teardown of `convert_audio`

A shallow embedding of `src/code/audio_converter.cpp`.  The routine drives a
third-party multimedia library; every library call is represented by its
outcome (a return code, or whether the returned pointer is non-null), collected
in the record `Lib`.  A run of `convert_audio` yields its exit status together
with the ordered list of steps it performed.

The file has three parts: the data model and the routine (`set_thread_count`,
`convert_audio_body`, `cleanup`, `convert_audio`); functions that read a trace
(which handles a step acquires or releases, whether it failed); and the
theorems.  The central theorem, `convert_audio_run`, says that a call performs
the steps of its body in source order up to the first one that fails and then
the calls of `cleanup`.
-/

namespace AudioConverter

/-! ## Data model -/

/-- Media kind of a stream (the library enum `AVMediaType`) -/
inductive AVMediaType
  | AVMEDIA_TYPE_UNKNOWN
  | AVMEDIA_TYPE_VIDEO
  | AVMEDIA_TYPE_AUDIO
  | AVMEDIA_TYPE_DATA
  | AVMEDIA_TYPE_SUBTITLE
  | AVMEDIA_TYPE_ATTACHMENT
  deriving DecidableEq, Repr

/-- Codec identifier (the library enum `AVCodecID`); only AAC is named by the routine -/
inductive AVCodecID
  | AV_CODEC_ID_AAC
  | other (tag : Nat)
  deriving DecidableEq, Repr

/-- Sample formats (the library enum `AVSampleFormat`); `AV_SAMPLE_FMT_NONE` is the value
that terminates a `sample_fmts` array -/
inductive AVSampleFormat
  | AV_SAMPLE_FMT_NONE
  | AV_SAMPLE_FMT_U8
  | AV_SAMPLE_FMT_S16
  | AV_SAMPLE_FMT_S32
  | AV_SAMPLE_FMT_FLT
  | AV_SAMPLE_FMT_DBL
  | AV_SAMPLE_FMT_U8P
  | AV_SAMPLE_FMT_S16P
  | AV_SAMPLE_FMT_S32P
  | AV_SAMPLE_FMT_FLTP
  | AV_SAMPLE_FMT_DBLP
  | AV_SAMPLE_FMT_S64
  | AV_SAMPLE_FMT_S64P
  deriving DecidableEq, Repr

/-- The fields of `streams[i]->codecpar` that the routine reads -/
structure AVStream where
  codec_type : AVMediaType
  codec_id : AVCodecID
  deriving DecidableEq, Repr

/-- A codec description.  `sample_fmts` is `none` for a null pointer; otherwise it holds
the entries of the array that come before the terminating `AV_SAMPLE_FMT_NONE` -/
structure AVCodec where
  sample_fmts : Option (List AVSampleFormat)
  deriving DecidableEq, Repr

/-- The fields of the encoder context that the routine assigns before opening it -/
structure AVCodecContext where
  sample_fmt : AVSampleFormat
  bit_rate : Int
  sample_rate : Int
  ch_layout : Nat
  deriving DecidableEq, Repr

/-- A packet of the input container, tagged with the index of its stream -/
structure AVPacket where
  stream_index : Nat
  deriving DecidableEq, Repr

/-- The library as seen by one run of `convert_audio`: the values of the error macros the
routine names, the content of the input, and the outcome of every library call.  Return
codes are C `int`s; a `Bool` or `Option` outcome says whether the returned pointer is
non-null.  A call that takes the address of a handle (`avformat_open_input`,
`avformat_alloc_output_context2`, `avio_open`) leaves the handle non-null when it
succeeds and null when it fails. -/
structure Lib where
  /-- value of the macro `AVERROR(EINVAL)` -/
  AVERROR_EINVAL : Int
  /-- value of the macro `AVERROR(ENOMEM)` -/
  AVERROR_ENOMEM : Int
  /-- value of the macro `AVERROR_DECODER_NOT_FOUND` -/
  AVERROR_DECODER_NOT_FOUND : Int
  /-- value of the macro `AVERROR_ENCODER_NOT_FOUND` -/
  AVERROR_ENCODER_NOT_FOUND : Int
  avformat_open_input : Int
  avformat_find_stream_info : Int
  /-- `in_format_ctx->streams`, of length `in_format_ctx->nb_streams` -/
  streams : List AVStream
  /-- the packets of the input, as a reader of the container would get them; the routine
  never reads them -/
  packets : List AVPacket
  avcodec_find_decoder : AVCodecID → Option AVCodec
  /-- whether `avcodec_alloc_context3(in_codec)` returns a context -/
  alloc_decoder_context : Bool
  avcodec_parameters_to_context : Int
  /-- return code of `avcodec_open2` on the decoder -/
  open_decoder : Int
  /-- `in_codec_ctx->sample_rate` once the decoder is open -/
  in_sample_rate : Int
  /-- `in_codec_ctx->ch_layout` once the decoder is open -/
  in_ch_layout : Nat
  avformat_alloc_output_context2 : Int
  /-- whether `out_format_ctx->oformat->flags` has the bit `AVFMT_NOFILE` -/
  oformat_nofile : Bool
  avformat_new_stream : Bool
  avcodec_find_encoder : AVCodecID → Option AVCodec
  /-- whether `avcodec_alloc_context3(out_codec)` returns a context -/
  alloc_encoder_context : Bool
  /-- return code of `avcodec_open2` on the encoder -/
  open_encoder : Int
  avcodec_parameters_from_context : Int
  avio_open : Int
  avformat_write_header : Int
  av_write_trailer : Int

/-- The error macros of the library expand to negative `int`s -/
def Lib.errors_negative (L : Lib) : Prop :=
  L.AVERROR_EINVAL < 0 ∧ L.AVERROR_ENOMEM < 0 ∧
    L.AVERROR_DECODER_NOT_FOUND < 0 ∧ L.AVERROR_ENCODER_NOT_FOUND < 0

instance (L : Lib) : Decidable L.errors_negative := by
  unfold Lib.errors_negative; infer_instance

/-- The codec context a call is made on: `in_codec_ctx` or `out_codec_ctx`, the two
contexts the routine allocates -/
inductive CodecCtx
  | in_codec_ctx
  | out_codec_ctx
  deriving DecidableEq, Repr

/-- One step of a run, with the arguments and the outcome that matter.  The last five are
the calls of the `cleanup` block. -/
inductive Step
  | avformat_open_input (filename : String) (ret : Int)
  | avformat_find_stream_info (ret : Int)
  | select_audio_stream (stream_index : Int)
  | avcodec_find_decoder (id : AVCodecID) (found : Bool)
  | alloc_decoder_context (ok : Bool)
  | avcodec_parameters_to_context (ret : Int)
  | open_decoder (ret : Int)
  | avformat_alloc_output_context2 (filename : String) (ret : Int)
  | avformat_new_stream (ok : Bool)
  | avcodec_find_encoder (id : AVCodecID) (found : Bool)
  | alloc_encoder_context (ok : Bool)
  | av_opt_set (codec_ctx : CodecCtx) (name : String) (value : String)
  | open_encoder (codec : AVCodec) (ctx : AVCodecContext) (ret : Int)
  | avcodec_parameters_from_context (ret : Int)
  | avio_open (filename : String) (ret : Int)
  | avformat_write_header (ret : Int)
  | av_write_trailer (ret : Int)
  | free_decoder_context
  | free_encoder_context
  | avformat_close_input
  | avio_closep (pb_open : Bool)
  | avformat_free_context
  deriving DecidableEq, Repr

/-- The local variables of `convert_audio` that `cleanup` and the return statement read,
and the steps performed so far.  A `Bool` says whether the pointer is non-null. -/
structure Locals where
  ret : Int
  in_format_ctx : Bool
  out_format_ctx : Bool
  in_codec_ctx : Bool
  out_codec_ctx : Bool
  /-- whether `out_format_ctx->pb` holds an open handle -/
  pb : Bool
  trace : List Step
  deriving DecidableEq, Repr

/-- Exit status and steps of one call -/
structure Run where
  ret : Int
  trace : List Step
  deriving DecidableEq, Repr

/-! ## `set_thread_count` -/

/-- Decimal rendering of a C `int` by the conversion `%d` -/
def fmt_d (n : Int) : List Char :=
  if n < 0 then '-' :: Nat.toDigits 10 n.natAbs else Nat.toDigits 10 n.natAbs

/-- Model of `snprintf(buf, size, "%d", n)`: the string left in `buf`, which keeps at most
`size - 1` characters of the rendering -/
def snprintf_d (size : Nat) (n : Int) : List Char :=
  (fmt_d n).take (size - 1)

/-- Model of `set_thread_count`: the call of `av_opt_set` it issues on `codec_ctx`, for the
option `threads`, with the content of `buf` (the search flag `AV_OPT_SEARCH_CHILDREN` is
the same in every call and is left out) -/
def set_thread_count (codec_ctx : CodecCtx) (thread_count : Int) : Step :=
  let buf := snprintf_d 32 thread_count
  Step.av_opt_set codec_ctx "threads" (String.mk buf)

/-! ## `convert_audio` -/

/-- Conversion of an `unsigned` value to `int` (32 bits, two's complement), as in the
assignment `stream_index = i` -/
def int_of_unsigned (i : Nat) : Int :=
  if i % 2 ^ 32 < 2 ^ 31 then ((i % 2 ^ 32 : Nat) : Int) else ((i % 2 ^ 32 : Nat) : Int) - 2 ^ 32

/-- The loop `for (unsigned i = 0; i < nb_streams; i++)` started at index `i` with the
streams from `i` on, and the current value of `stream_index` -/
def find_audio_stream_from : List AVStream → Nat → Int → Int
  | [], _, stream_index => stream_index
  | st :: rest, i, stream_index =>
      if st.codec_type = AVMediaType.AVMEDIA_TYPE_AUDIO then int_of_unsigned i
      else find_audio_stream_from rest (i + 1) stream_index

/-- Value of `stream_index` after the search for the first audio stream -/
def find_audio_stream (streams : List AVStream) : Int :=
  find_audio_stream_from streams 0 (-1)

/-- The value `convert_audio` stores in `out_codec_ctx->sample_fmt`: `sample_fmts[0]` when
the pointer is non-null, planar float otherwise -/
def select_sample_fmt (out_codec : AVCodec) : AVSampleFormat :=
  match out_codec.sample_fmts with
  | some fmts =>
      (fmts ++ [AVSampleFormat.AV_SAMPLE_FMT_NONE]).headD AVSampleFormat.AV_SAMPLE_FMT_NONE
  | none => AVSampleFormat.AV_SAMPLE_FMT_FLTP

/-- Append a step to the trace -/
def Locals.log (s : Locals) (e : Step) : Locals :=
  { s with trace := s.trace ++ [e] }

/-- Assignment to `ret` -/
def Locals.set_ret (s : Locals) (ret : Int) : Locals :=
  { s with ret := ret }

/-- Assignment to `in_format_ctx` -/
def Locals.set_in_format_ctx (s : Locals) (non_null : Bool) : Locals :=
  { s with in_format_ctx := non_null }

/-- Assignment to `out_format_ctx` -/
def Locals.set_out_format_ctx (s : Locals) (non_null : Bool) : Locals :=
  { s with out_format_ctx := non_null }

/-- Assignment to `in_codec_ctx` -/
def Locals.set_in_codec_ctx (s : Locals) (non_null : Bool) : Locals :=
  { s with in_codec_ctx := non_null }

/-- Assignment to `out_codec_ctx` -/
def Locals.set_out_codec_ctx (s : Locals) (non_null : Bool) : Locals :=
  { s with out_codec_ctx := non_null }

/-- Assignment to `out_format_ctx->pb` -/
def Locals.set_pb (s : Locals) (open_handle : Bool) : Locals :=
  { s with pb := open_handle }

/-- The end of the body, from the header to the trailer; the source has no statement
between the two (its comment there reads: insert the decoding/encoding loop here as needed) -/
def write_header_and_trailer (L : Lib) (s : Locals) : Locals :=
  -- Write header to the output file.
  let s : Locals := (s.log (Step.avformat_write_header L.avformat_write_header)).set_ret
    L.avformat_write_header
  if s.ret < 0 then s else
  -- Write trailer to finalize the output file.
  let s : Locals := (s.log (Step.av_write_trailer L.av_write_trailer)).set_ret L.av_write_trailer
  s

/-- The part of `convert_audio` between the null check and the label `cleanup`; every
`goto cleanup` is a return of the current locals -/
def convert_audio_body (L : Lib) (input_filename output_filename : String)
    (thread_count : Int) : Locals :=
  let s : Locals :=
    { ret := 0, in_format_ctx := false, out_format_ctx := false, in_codec_ctx := false,
      out_codec_ctx := false, pb := false, trace := [] }
  -- Open input file.
  let s : Locals :=
    ((s.log (Step.avformat_open_input input_filename L.avformat_open_input)).set_ret
      L.avformat_open_input).set_in_format_ctx (decide (0 ≤ L.avformat_open_input))
  if s.ret < 0 then s else
  let s : Locals := (s.log (Step.avformat_find_stream_info L.avformat_find_stream_info)).set_ret
    L.avformat_find_stream_info
  if s.ret < 0 then s else
  -- Find the first audio stream.
  let stream_index := find_audio_stream L.streams
  let s : Locals := s.log (Step.select_audio_stream stream_index)
  if stream_index < 0 then s.set_ret L.AVERROR_EINVAL else
  -- in_stream = in_format_ctx->streams[stream_index]; the index is in range
  -- (theorem in_stream_exists), so the first alternative is never taken
  match L.streams[stream_index.toNat]? with
  | none => s
  | some in_stream =>
  -- Find and open the decoder.
  let in_codec := L.avcodec_find_decoder in_stream.codec_id
  let s : Locals := s.log (Step.avcodec_find_decoder in_stream.codec_id in_codec.isSome)
  if in_codec.isNone then s.set_ret L.AVERROR_DECODER_NOT_FOUND else
  let s : Locals := (s.log (Step.alloc_decoder_context L.alloc_decoder_context)).set_in_codec_ctx
    L.alloc_decoder_context
  if !s.in_codec_ctx then s.set_ret L.AVERROR_ENOMEM else
  let s : Locals :=
    (s.log (Step.avcodec_parameters_to_context L.avcodec_parameters_to_context)).set_ret
      L.avcodec_parameters_to_context
  if s.ret < 0 then s else
  let s : Locals := (s.log (Step.open_decoder L.open_decoder)).set_ret L.open_decoder
  if s.ret < 0 then s else
  -- Allocate output format context.
  let s : Locals :=
    ((s.log (Step.avformat_alloc_output_context2 output_filename
        L.avformat_alloc_output_context2)).set_ret
      L.avformat_alloc_output_context2).set_out_format_ctx
      (decide (0 ≤ L.avformat_alloc_output_context2))
  if s.ret < 0 then s else
  -- Create output stream.
  let s : Locals := s.log (Step.avformat_new_stream L.avformat_new_stream)
  if !L.avformat_new_stream then s.set_ret L.AVERROR_ENOMEM else
  -- Find and open the encoder.
  let s : Locals := s.log (Step.avcodec_find_encoder AVCodecID.AV_CODEC_ID_AAC
    (L.avcodec_find_encoder AVCodecID.AV_CODEC_ID_AAC).isSome)
  match L.avcodec_find_encoder AVCodecID.AV_CODEC_ID_AAC with
  | none => s.set_ret L.AVERROR_ENCODER_NOT_FOUND
  | some out_codec =>
  let s : Locals := (s.log (Step.alloc_encoder_context L.alloc_encoder_context)).set_out_codec_ctx
    L.alloc_encoder_context
  if !s.out_codec_ctx then s.set_ret L.AVERROR_ENOMEM else
  let out_codec_ctx : AVCodecContext :=
    { sample_fmt := select_sample_fmt out_codec,
      bit_rate := 64000,
      sample_rate := L.in_sample_rate,
      -- Use the new channel layout field 'ch_layout'
      ch_layout := L.in_ch_layout }
  -- Set the thread count.
  let s : Locals := s.log (set_thread_count CodecCtx.out_codec_ctx thread_count)
  let s : Locals := (s.log (Step.open_encoder out_codec out_codec_ctx L.open_encoder)).set_ret
    L.open_encoder
  if s.ret < 0 then s else
  let s : Locals :=
    (s.log (Step.avcodec_parameters_from_context L.avcodec_parameters_from_context)).set_ret
      L.avcodec_parameters_from_context
  if s.ret < 0 then s else
  -- Open the output file.
  if !L.oformat_nofile then
    let s : Locals := ((s.log (Step.avio_open output_filename L.avio_open)).set_ret
      L.avio_open).set_pb (decide (0 ≤ L.avio_open))
    if s.ret < 0 then s else write_header_and_trailer L s
  else write_header_and_trailer L s

/-- The block after the label `cleanup`, up to the return statement -/
def cleanup (L : Lib) (s : Locals) : Locals :=
  let s : Locals := if s.in_codec_ctx then s.log Step.free_decoder_context else s
  let s : Locals := if s.out_codec_ctx then s.log Step.free_encoder_context else s
  let s : Locals := if s.in_format_ctx then s.log Step.avformat_close_input else s
  let s : Locals :=
    if s.out_format_ctx then
      let s : Locals := if !L.oformat_nofile then s.log (Step.avio_closep s.pb) else s
      s.log Step.avformat_free_context
    else s
  s

/-- The statement `return ret < 0 ? 1 : 0;` -/
def Locals.finish (s : Locals) : Run :=
  { ret := if s.ret < 0 then 1 else 0, trace := s.trace }

/-- Model of `convert_audio`; a filename is `none` for a null pointer -/
def convert_audio (L : Lib) (input_filename output_filename : Option String)
    (thread_count : Int) : Run :=
  match input_filename, output_filename with
  | some inp, some out => (cleanup L (convert_audio_body L inp out thread_count)).finish
  | _, _ => { ret := -1, trace := [] }

/-! ## Reading a trace -/

/-- The handles `convert_audio` acquires -/
inductive Resource
  | input_container
  | decoder_context
  | output_context
  | encoder_context
  | output_file
  deriving DecidableEq, Repr

/-- The handle a step acquires, if any: a successful open or allocation -/
def Step.acquires : Step → Option Resource
  | Step.avformat_open_input _ ret => if 0 ≤ ret then some Resource.input_container else none
  | Step.alloc_decoder_context ok => if ok then some Resource.decoder_context else none
  | Step.avformat_alloc_output_context2 _ ret =>
      if 0 ≤ ret then some Resource.output_context else none
  | Step.alloc_encoder_context ok => if ok then some Resource.encoder_context else none
  | Step.avio_open _ ret => if 0 ≤ ret then some Resource.output_file else none
  | _ => none

/-- The handle a step releases, if any; `avio_closep` on a null handle releases nothing -/
def Step.releases : Step → Option Resource
  | Step.free_decoder_context => some Resource.decoder_context
  | Step.free_encoder_context => some Resource.encoder_context
  | Step.avformat_close_input => some Resource.input_container
  | Step.avio_closep pb_open => if pb_open then some Resource.output_file else none
  | Step.avformat_free_context => some Resource.output_context
  | _ => none

/-- Handles acquired along a trace, in order -/
def acquired (t : List Step) : List Resource := t.filterMap Step.acquires

/-- Handles released along a trace, in order -/
def released (t : List Step) : List Resource := t.filterMap Step.releases

/-- Whether a step is one of the fallible steps of the body and failed, by the test the
routine applies to it: a negative return code, a null pointer, a negative stream index -/
def Step.failed : Step → Bool
  | Step.avformat_open_input _ ret => decide (ret < 0)
  | Step.avformat_find_stream_info ret => decide (ret < 0)
  | Step.select_audio_stream stream_index => decide (stream_index < 0)
  | Step.avcodec_find_decoder _ found => !found
  | Step.alloc_decoder_context ok => !ok
  | Step.avcodec_parameters_to_context ret => decide (ret < 0)
  | Step.open_decoder ret => decide (ret < 0)
  | Step.avformat_alloc_output_context2 _ ret => decide (ret < 0)
  | Step.avformat_new_stream ok => !ok
  | Step.avcodec_find_encoder _ found => !found
  | Step.alloc_encoder_context ok => !ok
  | Step.open_encoder _ _ ret => decide (ret < 0)
  | Step.avcodec_parameters_from_context ret => decide (ret < 0)
  | Step.avio_open _ ret => decide (ret < 0)
  | Step.avformat_write_header ret => decide (ret < 0)
  | Step.av_write_trailer ret => decide (ret < 0)
  | _ => false

/-- Whether a step is a call of `avformat_write_header` -/
def Step.is_write_header : Step → Bool
  | Step.avformat_write_header _ => true
  | _ => false

/-- Whether a step is a call of `av_write_trailer` -/
def Step.is_write_trailer : Step → Bool
  | Step.av_write_trailer _ => true
  | _ => false

/-- Whether a step is a call of `avformat_write_header` that succeeded -/
def Step.is_header_written : Step → Bool
  | Step.avformat_write_header ret => decide (0 ≤ ret)
  | _ => false

/-- Whether a step is a call of `avformat_new_stream` that returned a stream -/
def Step.is_stream_created : Step → Bool
  | Step.avformat_new_stream ok => ok
  | _ => false

/-- Whether a step is a successful copy of the encoder parameters to the output stream
(`avcodec_parameters_from_context`) -/
def Step.is_stream_declared : Step → Bool
  | Step.avcodec_parameters_from_context ret => decide (0 ≤ ret)
  | _ => false

/-- Whether a step is a call of `av_opt_set` -/
def Step.is_av_opt_set : Step → Bool
  | Step.av_opt_set _ _ _ => true
  | _ => false

/-- Whether a step is an allocation of the encoder context `out_codec_ctx` that returned a
context -/
def Step.is_encoder_allocated : Step → Bool
  | Step.alloc_encoder_context ok => ok
  | _ => false

/-- Whether a step is the opening of the encoder -/
def Step.is_open_encoder : Step → Bool
  | Step.open_encoder _ _ _ => true
  | _ => false

/-- Whether a step creates or writes the output: allocation of the output context,
opening of the output file, header, trailer -/
def Step.touches_output : Step → Bool
  | Step.avformat_alloc_output_context2 _ _ => true
  | Step.avio_open _ _ => true
  | Step.avformat_write_header _ => true
  | Step.av_write_trailer _ => true
  | _ => false

/-- The handles that the pointer variables of `convert_audio` hold, in the order in which
the routine acquires them -/
def held (s : Locals) : List Resource :=
  (if s.in_format_ctx then [Resource.input_container] else []) ++
  (if s.in_codec_ctx then [Resource.decoder_context] else []) ++
  (if s.out_format_ctx then [Resource.output_context] else []) ++
  (if s.out_codec_ctx then [Resource.encoder_context] else []) ++
  (if s.pb then [Resource.output_file] else [])

/-! ## The run as a plan cut at the first failure -/

/-- The encoder context as `convert_audio` has set it when it opens the encoder -/
def encoder_settings (L : Lib) (out_codec : AVCodec) : AVCodecContext :=
  { sample_fmt := select_sample_fmt out_codec,
    bit_rate := 64000,
    sample_rate := L.in_sample_rate,
    ch_layout := L.in_ch_layout }

/-- The steps of the body in source order, as they are logged when none of them fails;
`in_stream` is the selected stream and `out_codec` the encoder that was found.  Used to
describe the runs of `convert_audio_body` (theorem `body_runs_plan`). -/
def plan (L : Lib) (inp out : String) (tc : Int) (in_stream : AVStream) (out_codec : AVCodec) :
    List Step :=
  [Step.avformat_open_input inp L.avformat_open_input,
   Step.avformat_find_stream_info L.avformat_find_stream_info,
   Step.select_audio_stream (find_audio_stream L.streams),
   Step.avcodec_find_decoder in_stream.codec_id (L.avcodec_find_decoder in_stream.codec_id).isSome,
   Step.alloc_decoder_context L.alloc_decoder_context,
   Step.avcodec_parameters_to_context L.avcodec_parameters_to_context,
   Step.open_decoder L.open_decoder,
   Step.avformat_alloc_output_context2 out L.avformat_alloc_output_context2,
   Step.avformat_new_stream L.avformat_new_stream,
   Step.avcodec_find_encoder AVCodecID.AV_CODEC_ID_AAC
     (L.avcodec_find_encoder AVCodecID.AV_CODEC_ID_AAC).isSome,
   Step.alloc_encoder_context L.alloc_encoder_context,
   set_thread_count CodecCtx.out_codec_ctx tc,
   Step.open_encoder out_codec (encoder_settings L out_codec) L.open_encoder,
   Step.avcodec_parameters_from_context L.avcodec_parameters_from_context] ++
  (if L.oformat_nofile then [] else [Step.avio_open out L.avio_open]) ++
  [Step.avformat_write_header L.avformat_write_header,
   Step.av_write_trailer L.av_write_trailer]

/-- A list of steps up to and including its first failed step -/
def upto_first_failure : List Step → List Step
  | [] => []
  | e :: es => if e.failed then [e] else e :: upto_first_failure es

/-- The calls of `cleanup` after the steps `t` of the body, told from the handles acquired
along `t` rather than from the pointer variables (theorem `cleanup_calls_of_held`) -/
def cleanup_calls (L : Lib) (t : List Step) : List Step :=
  (if Resource.decoder_context ∈ acquired t then [Step.free_decoder_context] else []) ++
  (if Resource.encoder_context ∈ acquired t then [Step.free_encoder_context] else []) ++
  (if Resource.input_container ∈ acquired t then [Step.avformat_close_input] else []) ++
  (if Resource.output_context ∈ acquired t then
    (if L.oformat_nofile then []
      else [Step.avio_closep (decide (Resource.output_file ∈ acquired t))]) ++
    [Step.avformat_free_context]
   else [])

/-! ## Sample environments -/

/-- A library in which every call succeeds, on an input whose second stream is audio and
whose output format needs a file -/
def lib_ok : Lib :=
  { AVERROR_EINVAL := -22
    AVERROR_ENOMEM := -12
    AVERROR_DECODER_NOT_FOUND := -1128613112
    AVERROR_ENCODER_NOT_FOUND := -1129203192
    avformat_open_input := 0
    avformat_find_stream_info := 0
    streams := [⟨AVMediaType.AVMEDIA_TYPE_VIDEO, AVCodecID.other 27⟩,
                ⟨AVMediaType.AVMEDIA_TYPE_AUDIO, AVCodecID.other 86017⟩]
    packets := [⟨0⟩, ⟨1⟩, ⟨1⟩]
    avcodec_find_decoder := fun _ => some ⟨none⟩
    alloc_decoder_context := true
    avcodec_parameters_to_context := 0
    open_decoder := 0
    in_sample_rate := 44100
    in_ch_layout := 2
    avformat_alloc_output_context2 := 0
    oformat_nofile := false
    avformat_new_stream := true
    avcodec_find_encoder := fun _ => some ⟨some [AVSampleFormat.AV_SAMPLE_FMT_FLTP]⟩
    alloc_encoder_context := true
    open_encoder := 0
    avcodec_parameters_from_context := 0
    avio_open := 0
    avformat_write_header := 0
    av_write_trailer := 0 }

/-- The library of `lib_ok` on an input that has a video stream only -/
def lib_video_only : Lib :=
  { lib_ok with streams := [⟨AVMediaType.AVMEDIA_TYPE_VIDEO, AVCodecID.other 27⟩] }

/-- The library of `lib_ok` with an AAC encoder whose `sample_fmts` array holds the
terminator only -/
def lib_empty_fmts : Lib :=
  { lib_ok with avcodec_find_encoder := fun _ => some ⟨some []⟩ }

/-! ## Stream selection -/

/-- An index below 2^31 is stored in an `int` unchanged -/
theorem int_of_unsigned_of_lt (i : Nat) (h : i < 2 ^ 31) : int_of_unsigned i = (i : Int) := by
  unfold int_of_unsigned
  have h1 : i % 2 ^ 32 = i := Nat.mod_eq_of_lt (by omega)
  rw [h1, if_pos h]

/-- A non-negative result of the conversion does not exceed the index converted -/
theorem int_of_unsigned_nonneg_toNat_le (i : Nat) (h : 0 ≤ int_of_unsigned i) :
    (int_of_unsigned i).toNat ≤ i := by
  unfold int_of_unsigned at *
  have h2 : i % 2 ^ 32 ≤ i := Nat.mod_le _ _
  have h3 : i % 2 ^ 32 < 2 ^ 32 := Nat.mod_lt _ (by norm_num)
  split_ifs at h ⊢ with hc
  · omega
  · omega

/-- The loop either finds no audio stream and leaves `stream_index` as it was, or stops at
the first audio stream and stores its index -/
theorem find_audio_stream_from_cases (l : List AVStream) (k : Nat) (d : Int) :
    (find_audio_stream_from l k d = d ∧
        ∀ st ∈ l, st.codec_type ≠ AVMediaType.AVMEDIA_TYPE_AUDIO) ∨
    (∃ i st, l[i]? = some st ∧ st.codec_type = AVMediaType.AVMEDIA_TYPE_AUDIO ∧
        (∀ j, j < i → ∀ st', l[j]? = some st' →
          st'.codec_type ≠ AVMediaType.AVMEDIA_TYPE_AUDIO) ∧
        find_audio_stream_from l k d = int_of_unsigned (k + i)) := by
  induction l generalizing k with
  | nil => left; simp [find_audio_stream_from]
  | cons a rest ih =>
    by_cases ha : a.codec_type = AVMediaType.AVMEDIA_TYPE_AUDIO
    · right
      refine ⟨0, a, by simp, ha, by simp, ?_⟩
      simp [find_audio_stream_from, ha]
    · rcases ih (k + 1) with ⟨h1, h2⟩ | ⟨i, st, h1, h2, h3, h4⟩
      · left
        refine ⟨by simp [find_audio_stream_from, ha, h1], ?_⟩
        intro st hst
        rcases List.mem_cons.mp hst with rfl | hst
        · exact ha
        · exact h2 st hst
      · right
        refine ⟨i + 1, st, by simpa using h1, h2, ?_, ?_⟩
        · intro j hj st' hst'
          cases j with
          | zero => simp at hst'; subst hst'; exact ha
          | succ j => exact h3 j (by omega) st' (by simpa using hst')
        · simp only [find_audio_stream_from, if_neg ha, h4]
          congr 1; omega

/-- A non-negative `stream_index` is the index of a stream of the list -/
theorem in_stream_exists (l : List AVStream) (h : ¬ find_audio_stream l < 0) :
    ∃ st, l[(find_audio_stream l).toNat]? = some st := by
  unfold find_audio_stream at *
  rcases find_audio_stream_from_cases l 0 (-1) with ⟨h1, _⟩ | ⟨i, st, h1, _, _, h4⟩
  · rw [h1] at h; exact absurd (by decide) h
  · have hi : i < l.length := (List.getElem?_eq_some_iff.mp h1).1
    rw [h4, Nat.zero_add] at h ⊢
    have := int_of_unsigned_nonneg_toNat_le i (not_lt.mp h)
    have hlt : (int_of_unsigned i).toNat < l.length := by omega
    exact ⟨l[(int_of_unsigned i).toNat], List.getElem?_eq_getElem hlt⟩

/-- C3: the selection picks index `i` exactly when stream `i` has audio type and no stream
of smaller index has; it leaves `stream_index` negative, which is the test for the failure
`No audio stream found`, exactly when no stream of the list has audio type.  The stream
count `nb_streams` of an opened input fits in an `int`, as the loop assumes when it
stores the `unsigned` index in `stream_index`. -/
theorem find_audio_stream_selects_first_audio (streams : List AVStream)
    (h : streams.length ≤ 2147483648) :
    (∀ i : Nat, find_audio_stream streams = (i : Int) ↔
      ((∃ st, streams[i]? = some st ∧ st.codec_type = AVMediaType.AVMEDIA_TYPE_AUDIO) ∧
        ∀ j, j < i → ∀ st, streams[j]? = some st →
          st.codec_type ≠ AVMediaType.AVMEDIA_TYPE_AUDIO)) ∧
    (find_audio_stream streams < 0 ↔
      ∀ st ∈ streams, st.codec_type ≠ AVMediaType.AVMEDIA_TYPE_AUDIO) := by
  unfold find_audio_stream
  rcases find_audio_stream_from_cases streams 0 (-1) with ⟨h1, h2⟩ | ⟨i, st, h1, h2, h3, h4⟩
  · refine ⟨fun i => ⟨fun hi => ?_, fun hi => ?_⟩,
      ⟨fun _ => h2, fun _ => by rw [h1]; decide⟩⟩
    · rw [h1] at hi; omega
    · obtain ⟨⟨st, hst, haud⟩, _⟩ := hi
      exact absurd haud (h2 st (List.getElem?_mem hst))
  · have hi : i < streams.length := (List.getElem?_eq_some_iff.mp h1).1
    rw [Nat.zero_add, int_of_unsigned_of_lt i (by omega)] at h4
    refine ⟨fun i' => ⟨fun hi' => ?_, fun hi' => ?_⟩, ⟨fun hneg => ?_, fun hall => ?_⟩⟩
    · rw [h4] at hi'
      have : i = i' := by exact_mod_cast hi'
      subst this
      exact ⟨⟨st, h1, h2⟩, h3⟩
    · obtain ⟨⟨st', hst', haud'⟩, hfirst⟩ := hi'
      rw [h4]
      rcases Nat.lt_trichotomy i i' with hlt | heq | hgt
      · exact absurd h2 (hfirst i hlt st h1)
      · rw [heq]
      · exact absurd haud' (h3 i' hgt st' hst')
    · rw [h4] at hneg; omega
    · exact absurd h2 (hall st (List.getElem?_mem h1))

/-- C3 on the two streams of `lib_ok`, a video stream followed by an audio stream -/
theorem find_audio_stream_selects_first_audio_witness :
    lib_ok.streams.length ≤ 2147483648 ∧
    ((∀ i : Nat, find_audio_stream lib_ok.streams = (i : Int) ↔
      ((∃ st, lib_ok.streams[i]? = some st ∧
          st.codec_type = AVMediaType.AVMEDIA_TYPE_AUDIO) ∧
        ∀ j, j < i → ∀ st, lib_ok.streams[j]? = some st →
          st.codec_type ≠ AVMediaType.AVMEDIA_TYPE_AUDIO)) ∧
    (find_audio_stream lib_ok.streams < 0 ↔
      ∀ st ∈ lib_ok.streams, st.codec_type ≠ AVMediaType.AVMEDIA_TYPE_AUDIO)) :=
  ⟨by decide, find_audio_stream_selects_first_audio lib_ok.streams (by decide)⟩

/-! ## The paths of `convert_audio` -/

set_option maxHeartbeats 1000000 in
/-- The body performs the steps of its plan up to the first failed one; its pointer
variables are non-null for exactly the handles acquired on the way; and, the error macros
being negative, `ret` is negative exactly when a step failed -/
theorem body_runs_plan (L : Lib) (inp out : String) (tc : Int) :
    ∃ in_stream out_codec,
      (∀ st, L.streams[(find_audio_stream L.streams).toNat]? = some st → st = in_stream) ∧
      (∀ c, L.avcodec_find_encoder AVCodecID.AV_CODEC_ID_AAC = some c → c = out_codec) ∧
      (convert_audio_body L inp out tc).trace =
        upto_first_failure (plan L inp out tc in_stream out_codec) ∧
      held (convert_audio_body L inp out tc) =
        acquired (convert_audio_body L inp out tc).trace ∧
      (L.errors_negative → ((convert_audio_body L inp out tc).ret < 0 ↔
        ∃ e ∈ (convert_audio_body L inp out tc).trace, e.failed = true)) := by
  refine ⟨(L.streams[(find_audio_stream L.streams).toNat]?).getD
      ⟨AVMediaType.AVMEDIA_TYPE_UNKNOWN, AVCodecID.AV_CODEC_ID_AAC⟩,
    (L.avcodec_find_encoder AVCodecID.AV_CODEC_ID_AAC).getD ⟨none⟩,
    fun st h => by simp [h], fun c h => by simp [h], ?_⟩
  unfold convert_audio_body write_header_and_trailer
  simp only [Locals.log, Locals.set_ret, Locals.set_in_format_ctx, Locals.set_out_format_ctx,
    Locals.set_in_codec_ctx, Locals.set_out_codec_ctx, Locals.set_pb]
  by_cases c_open : L.avformat_open_input < 0
  · rw [if_pos c_open]
    simp +contextual [held, plan, upto_first_failure, Step.failed, acquired, Step.acquires,
      Lib.errors_negative, set_thread_count, encoder_settings, *]
  rw [if_neg c_open]
  have c_open_ok : 0 ≤ L.avformat_open_input := not_lt.mp c_open
  by_cases c_probe : L.avformat_find_stream_info < 0
  · rw [if_pos c_probe]
    simp +contextual [held, plan, upto_first_failure, Step.failed, acquired, Step.acquires,
      Lib.errors_negative, set_thread_count, encoder_settings, *]
  rw [if_neg c_probe]
  have c_probe_ok : 0 ≤ L.avformat_find_stream_info := not_lt.mp c_probe
  by_cases c_sel : find_audio_stream L.streams < 0
  · rw [if_pos c_sel]
    simp +contextual [held, plan, upto_first_failure, Step.failed, acquired, Step.acquires,
      Lib.errors_negative, set_thread_count, encoder_settings, *]
  rw [if_neg c_sel]
  have c_sel_ok : 0 ≤ find_audio_stream L.streams := not_lt.mp c_sel
  obtain ⟨in_stream, c_stream⟩ := in_stream_exists L.streams c_sel
  rw [c_stream]
  dsimp only
  by_cases c_finddec : (L.avcodec_find_decoder in_stream.codec_id).isNone = true
  · rw [if_pos c_finddec]
    replace c_finddec : L.avcodec_find_decoder in_stream.codec_id = none := by simpa using c_finddec
    simp +contextual [held, plan, upto_first_failure, Step.failed, acquired, Step.acquires,
      Lib.errors_negative, set_thread_count, encoder_settings, *]
  rw [if_neg c_finddec]
  replace c_finddec : (L.avcodec_find_decoder in_stream.codec_id).isSome = true :=
    Option.ne_none_iff_isSome.mp (by simpa using c_finddec)
  by_cases c_allocdec : (!L.alloc_decoder_context) = true
  · rw [if_pos c_allocdec]
    replace c_allocdec : L.alloc_decoder_context = false := by simpa using c_allocdec
    simp +contextual [held, plan, upto_first_failure, Step.failed, acquired, Step.acquires,
      Lib.errors_negative, set_thread_count, encoder_settings, *]
  rw [if_neg c_allocdec]
  replace c_allocdec : L.alloc_decoder_context = true := by simpa using c_allocdec
  by_cases c_params : L.avcodec_parameters_to_context < 0
  · rw [if_pos c_params]
    simp +contextual [held, plan, upto_first_failure, Step.failed, acquired, Step.acquires,
      Lib.errors_negative, set_thread_count, encoder_settings, *]
  rw [if_neg c_params]
  have c_params_ok : 0 ≤ L.avcodec_parameters_to_context := not_lt.mp c_params
  by_cases c_opendec : L.open_decoder < 0
  · rw [if_pos c_opendec]
    simp +contextual [held, plan, upto_first_failure, Step.failed, acquired, Step.acquires,
      Lib.errors_negative, set_thread_count, encoder_settings, *]
  rw [if_neg c_opendec]
  have c_opendec_ok : 0 ≤ L.open_decoder := not_lt.mp c_opendec
  by_cases c_allocout : L.avformat_alloc_output_context2 < 0
  · rw [if_pos c_allocout]
    simp +contextual [held, plan, upto_first_failure, Step.failed, acquired, Step.acquires,
      Lib.errors_negative, set_thread_count, encoder_settings, *]
  rw [if_neg c_allocout]
  have c_allocout_ok : 0 ≤ L.avformat_alloc_output_context2 := not_lt.mp c_allocout
  by_cases c_newstream : (!L.avformat_new_stream) = true
  · rw [if_pos c_newstream]
    replace c_newstream : L.avformat_new_stream = false := by simpa using c_newstream
    simp +contextual [held, plan, upto_first_failure, Step.failed, acquired, Step.acquires,
      Lib.errors_negative, set_thread_count, encoder_settings, *]
  rw [if_neg c_newstream]
  replace c_newstream : L.avformat_new_stream = true := by simpa using c_newstream
  cases c_findenc : L.avcodec_find_encoder AVCodecID.AV_CODEC_ID_AAC with
  | none =>
    dsimp only
    simp +contextual [held, plan, upto_first_failure, Step.failed, acquired, Step.acquires,
      Lib.errors_negative, set_thread_count, encoder_settings, *]
  | some out_codec =>
  dsimp only
  by_cases c_allocenc : (!L.alloc_encoder_context) = true
  · rw [if_pos c_allocenc]
    replace c_allocenc : L.alloc_encoder_context = false := by simpa using c_allocenc
    simp +contextual [held, plan, upto_first_failure, Step.failed, acquired, Step.acquires,
      Lib.errors_negative, set_thread_count, encoder_settings, *]
  rw [if_neg c_allocenc]
  replace c_allocenc : L.alloc_encoder_context = true := by simpa using c_allocenc
  by_cases c_openenc : L.open_encoder < 0
  · rw [if_pos c_openenc]
    simp +contextual [held, plan, upto_first_failure, Step.failed, acquired, Step.acquires,
      Lib.errors_negative, set_thread_count, encoder_settings, *]
  rw [if_neg c_openenc]
  have c_openenc_ok : 0 ≤ L.open_encoder := not_lt.mp c_openenc
  by_cases c_paramsfrom : L.avcodec_parameters_from_context < 0
  · rw [if_pos c_paramsfrom]
    simp +contextual [held, plan, upto_first_failure, Step.failed, acquired, Step.acquires,
      Lib.errors_negative, set_thread_count, encoder_settings, *]
  rw [if_neg c_paramsfrom]
  have c_paramsfrom_ok : 0 ≤ L.avcodec_parameters_from_context := not_lt.mp c_paramsfrom
  cases hn : L.oformat_nofile
  · simp only [Bool.not_false, if_true]
    by_cases c_avio : L.avio_open < 0
    · rw [if_pos c_avio]
      simp +contextual [held, plan, upto_first_failure, Step.failed, acquired, Step.acquires,
        Lib.errors_negative, set_thread_count, encoder_settings, *]
    rw [if_neg c_avio]
    have c_avio_ok : 0 ≤ L.avio_open := not_lt.mp c_avio
    by_cases c_header : L.avformat_write_header < 0
    · rw [if_pos c_header]
      simp +contextual [held, plan, upto_first_failure, Step.failed, acquired, Step.acquires,
        Lib.errors_negative, set_thread_count, encoder_settings, *]
    rw [if_neg c_header]
    have c_header_ok : 0 ≤ L.avformat_write_header := not_lt.mp c_header
    by_cases c_trailer : L.av_write_trailer < 0
    · simp +contextual [held, plan, upto_first_failure, Step.failed, acquired, Step.acquires,
        Lib.errors_negative, set_thread_count, encoder_settings, *]
    · have c_trailer_ok : 0 ≤ L.av_write_trailer := not_lt.mp c_trailer
      simp +contextual [held, plan, upto_first_failure, Step.failed, acquired, Step.acquires,
        Lib.errors_negative, set_thread_count, encoder_settings, *]
  · simp only [Bool.not_true, Bool.false_eq_true, if_false]
    by_cases c_header : L.avformat_write_header < 0
    · rw [if_pos c_header]
      simp +contextual [held, plan, upto_first_failure, Step.failed, acquired, Step.acquires,
        Lib.errors_negative, set_thread_count, encoder_settings, *]
    rw [if_neg c_header]
    have c_header_ok : 0 ≤ L.avformat_write_header := not_lt.mp c_header
    by_cases c_trailer : L.av_write_trailer < 0
    · simp +contextual [held, plan, upto_first_failure, Step.failed, acquired, Step.acquires,
        Lib.errors_negative, set_thread_count, encoder_settings, *]
    · have c_trailer_ok : 0 ≤ L.av_write_trailer := not_lt.mp c_trailer
      simp +contextual [held, plan, upto_first_failure, Step.failed, acquired, Step.acquires,
        Lib.errors_negative, set_thread_count, encoder_settings, *]

/-- The block `cleanup` leaves `ret` alone and appends one release for each non-null
pointer, in its fixed order -/
theorem cleanup_trace (L : Lib) (s : Locals) :
    (cleanup L s).ret = s.ret ∧
    (cleanup L s).trace = s.trace ++
      ((if s.in_codec_ctx then [Step.free_decoder_context] else []) ++
       (if s.out_codec_ctx then [Step.free_encoder_context] else []) ++
       (if s.in_format_ctx then [Step.avformat_close_input] else []) ++
       (if s.out_format_ctx then
          (if L.oformat_nofile then [] else [Step.avio_closep s.pb]) ++
          [Step.avformat_free_context]
        else [])) := by
  obtain ⟨ret, a, b, c, d, e, t⟩ := s
  cases a <;> cases b <;> cases c <;> cases d <;> cases hn : L.oformat_nofile <;>
    simp [cleanup, Locals.log, hn]

/-- When the pointer variables hold exactly the handles acquired along the trace, the
releases of `cleanup` are those of `cleanup_calls` -/
theorem cleanup_calls_of_held (L : Lib) (s : Locals) (h : held s = acquired s.trace) :
    (cleanup L s).trace = s.trace ++ cleanup_calls L s.trace := by
  rw [(cleanup_trace L s).2, cleanup_calls, ← h]
  obtain ⟨ret, a, b, c, d, e, t⟩ := s
  cases a <;> cases b <;> cases c <;> cases d <;> cases e <;> simp [held]

/-- A call with non-null filenames performs the steps of the plan up to the first failed
one, then the calls of `cleanup`; the error macros being negative, its exit status is 1
when a step failed and 0 otherwise -/
theorem convert_audio_run (L : Lib) (inp out : String) (tc : Int) :
    ∃ in_stream out_codec,
      (∀ st, L.streams[(find_audio_stream L.streams).toNat]? = some st → st = in_stream) ∧
      (∀ c, L.avcodec_find_encoder AVCodecID.AV_CODEC_ID_AAC = some c → c = out_codec) ∧
      (convert_audio L (some inp) (some out) tc).trace =
        upto_first_failure (plan L inp out tc in_stream out_codec) ++
          cleanup_calls L (upto_first_failure (plan L inp out tc in_stream out_codec)) ∧
      (L.errors_negative →
        (convert_audio L (some inp) (some out) tc).ret =
          if ∃ e ∈ upto_first_failure (plan L inp out tc in_stream out_codec), e.failed = true
          then 1 else 0) := by
  obtain ⟨in_stream, out_codec, hs, hc, ht, hheld, hret⟩ := body_runs_plan L inp out tc
  refine ⟨in_stream, out_codec, hs, hc, ?_, ?_⟩
  · show (cleanup L (convert_audio_body L inp out tc)).finish.trace = _
    rw [Locals.finish, cleanup_calls_of_held L _ hheld, ht]
  · intro hE
    show (cleanup L (convert_audio_body L inp out tc)).finish.ret = _
    rw [Locals.finish, (cleanup_trace L _).1, ← ht]
    by_cases hr : (convert_audio_body L inp out tc).ret < 0
    · rw [if_pos hr, if_pos ((hret hE).mp hr)]
    · rw [if_neg hr, if_neg (fun h => hr ((hret hE).mpr h))]

/-- With a null filename the routine returns -1 at once, having done nothing -/
theorem convert_audio_of_null (L : Lib) (input_filename output_filename : Option String)
    (tc : Int) (h : input_filename = none ∨ output_filename = none) :
    convert_audio L input_filename output_filename tc = { ret := -1, trace := [] } := by
  rcases h with rfl | rfl
  · rfl
  · cases input_filename <;> rfl

/-- A list cut at its first failure is a prefix of the list: none of its steps but the
last has failed, and its last step has failed unless the list was not cut -/
theorem upto_first_failure_eq_take (p : List Step) :
    ∃ n, n ≤ p.length ∧ (0 < p.length → 0 < n) ∧ upto_first_failure p = p.take n ∧
      (∀ e ∈ p.take (n - 1), e.failed = false) ∧
      (n < p.length → ∃ e, p[n - 1]? = some e ∧ e.failed = true) := by
  induction p with
  | nil => exact ⟨0, by simp [upto_first_failure]⟩
  | cons a rest ih =>
    by_cases ha : a.failed = true
    · exact ⟨1, by simp [upto_first_failure, ha]⟩
    · obtain ⟨n, hn, h0, h1, h2, h3⟩ := ih
      refine ⟨n + 1, by simpa using hn, by simp, by simp [upto_first_failure, ha, h1], ?_, ?_⟩
      · intro e he
        cases n with
        | zero => simp at he
        | succ n =>
          rcases List.mem_cons.mp (by simpa using he) with rfl | he
          · simpa using ha
          · exact h2 e (by simpa using he)
      · intro hlt
        have hpos : 0 < n :=
          h0 (by simpa using Nat.lt_of_le_of_lt (Nat.zero_le n) (by simpa using hlt))
        obtain ⟨m, rfl⟩ : ∃ m, n = m + 1 := ⟨n - 1, by omega⟩
        obtain ⟨e, he1, he2⟩ := h3 (by simpa using hlt)
        exact ⟨e, by simpa using he1, he2⟩

/-! ## Exit status -/

/-- No call of `cleanup` counts as a failed step, and none acquires a handle -/
theorem cleanup_calls_inert (L : Lib) (t : List Step) :
    (∀ e ∈ cleanup_calls L t, e.failed = false) ∧ acquired (cleanup_calls L t) = [] := by
  unfold cleanup_calls acquired
  constructor
  · intro e he
    simp only [List.mem_append] at he
    rcases he with ((he | he) | he) | he
    all_goals split_ifs at he
    all_goals simp at he
    all_goals first | (subst he; rfl) | (rcases he with rfl | rfl <;> rfl)
  · split_ifs <;> simp [Step.acquires]

/-- The first step is the opening of the input, and the run stops there when it fails -/
theorem upto_first_failure_plan_open (L : Lib) (inp out : String) (tc : Int)
    (in_stream : AVStream) (out_codec : AVCodec) (h : L.avformat_open_input < 0) :
    upto_first_failure (plan L inp out tc in_stream out_codec) =
      [Step.avformat_open_input inp L.avformat_open_input] := by
  simp [plan, upto_first_failure, Step.failed, h]

/-- C1: for non-null filenames and every combination of outcomes of the library steps,
`convert_audio` returns 0 if and only if no executed step failed, returns 1 if some
executed step failed, and in particular returns 1 when opening the input fails.  (The
error macros of the library are negative.) -/
theorem convert_audio_status_iff_steps_succeed (L : Lib) (inp out : String) (tc : Int)
    (hE : L.errors_negative) :
    ((convert_audio L (some inp) (some out) tc).ret = 0 ↔
      ∀ e ∈ (convert_audio L (some inp) (some out) tc).trace, e.failed = false) ∧
    ((∃ e ∈ (convert_audio L (some inp) (some out) tc).trace, e.failed = true) →
      (convert_audio L (some inp) (some out) tc).ret = 1) ∧
    (L.avformat_open_input < 0 → (convert_audio L (some inp) (some out) tc).ret = 1) := by
  obtain ⟨in_stream, out_codec, -, -, ht, hret⟩ := convert_audio_run L inp out tc
  have hcc := (cleanup_calls_inert L
    (upto_first_failure (plan L inp out tc in_stream out_codec))).1
  rw [ht, hret hE]
  refine ⟨?_, ?_, ?_⟩
  · constructor
    · intro h0 e he
      rcases List.mem_append.mp he with he | he
      · by_contra hf
        have : ∃ e ∈ upto_first_failure (plan L inp out tc in_stream out_codec),
            e.failed = true := ⟨e, he, by simpa using hf⟩
        rw [if_pos this] at h0
        exact absurd h0 (by decide)
      · exact hcc e he
    · intro hall
      rw [if_neg]
      rintro ⟨e, he, hf⟩
      rw [hall e (List.mem_append.mpr (Or.inl he))] at hf
      exact absurd hf (by decide)
  · rintro ⟨e, he, hf⟩
    rcases List.mem_append.mp he with he | he
    · rw [if_pos ⟨e, he, hf⟩]
    · rw [hcc e he] at hf
      exact absurd hf (by decide)
  · intro h
    rw [if_pos]
    rw [upto_first_failure_plan_open L inp out tc in_stream out_codec h]
    exact ⟨_, List.mem_singleton.mpr rfl, by simp [Step.failed, h]⟩

/-- C1 with a library in which every call succeeds -/
theorem convert_audio_status_iff_steps_succeed_witness :
    lib_ok.errors_negative ∧
    (((convert_audio lib_ok (some "in.mp3") (some "out.m4a") 4).ret = 0 ↔
      ∀ e ∈ (convert_audio lib_ok (some "in.mp3") (some "out.m4a") 4).trace,
        e.failed = false) ∧
    ((∃ e ∈ (convert_audio lib_ok (some "in.mp3") (some "out.m4a") 4).trace,
        e.failed = true) →
      (convert_audio lib_ok (some "in.mp3") (some "out.m4a") 4).ret = 1) ∧
    (lib_ok.avformat_open_input < 0 →
      (convert_audio lib_ok (some "in.mp3") (some "out.m4a") 4).ret = 1)) :=
  ⟨by decide, convert_audio_status_iff_steps_succeed lib_ok "in.mp3" "out.m4a" 4 (by decide)⟩

/-! ## Acquisition and release of handles -/

set_option maxHeartbeats 2000000 in
/-- Along the steps of the body the handles are acquired in the order input container,
decoder context, output context, encoder context, output file; nothing is released; and
the output file is opened only for a format that needs one -/
theorem acquired_upto_first_failure (L : Lib) (inp out : String) (tc : Int)
    (in_stream : AVStream) (out_codec : AVCodec) :
    acquired (upto_first_failure (plan L inp out tc in_stream out_codec)) <+:
      [Resource.input_container, Resource.decoder_context, Resource.output_context,
       Resource.encoder_context, Resource.output_file] ∧
    released (upto_first_failure (plan L inp out tc in_stream out_codec)) = [] ∧
    (Resource.output_file ∈
        acquired (upto_first_failure (plan L inp out tc in_stream out_codec)) →
      L.oformat_nofile = false) := by
  obtain ⟨n, hn, -, hu, hok, hfail⟩ :=
    upto_first_failure_eq_take (plan L inp out tc in_stream out_codec)
  rw [hu]
  cases hnf : L.oformat_nofile <;>
  simp only [plan, hnf, if_true, if_false, List.cons_append, List.nil_append,
    Bool.false_eq_true, List.length_cons, List.length_nil] at hn hok hfail ⊢ <;>
  interval_cases n <;>
  simp only [List.take_succ_cons, List.take_zero, List.mem_cons, List.not_mem_nil,
    forall_eq_or_imp, Step.failed, set_thread_count, decide_eq_false_iff_not, not_lt,
    Bool.not_eq_false', or_false, false_or, Nat.reduceSub, Nat.reduceAdd, Nat.reduceLT,
    forall_eq, IsEmpty.forall_iff, implies_true, and_true, true_and,
    List.getElem?_cons_succ, List.getElem?_cons_zero, Option.some.injEq, exists_eq_left',
    decide_eq_true_eq, Bool.not_eq_true', forall_const, Nat.lt_irrefl, false_implies,
    Nat.reduceLeDiff, Bool.not_eq_eq_eq_not, Bool.not_true, Bool.not_false,
    Bool.false_eq_true] at hok hfail <;>
  simp [acquired, released, Step.acquires, Step.releases, set_thread_count, hok, hfail,
    not_le.mpr]

/-- The releases issued by `cleanup` after a body whose acquisitions follow the order of
the routine: the handles acquired, in the order decoder context, encoder context, input
container, output file, output context -/
theorem released_cleanup_calls (L : Lib) (t : List Step)
    (hA : acquired t <+: [Resource.input_container, Resource.decoder_context,
      Resource.output_context, Resource.encoder_context, Resource.output_file])
    (hf : Resource.output_file ∈ acquired t → L.oformat_nofile = false) :
    released (cleanup_calls L t) =
      [Resource.decoder_context, Resource.encoder_context, Resource.input_container,
       Resource.output_file, Resource.output_context].filter (fun r => r ∈ acquired t) ∧
    ∀ r, (released (cleanup_calls L t)).count r = (acquired t).count r ∧
      (acquired t).count r ≤ 1 := by
  unfold cleanup_calls
  rw [List.prefix_iff_eq_take] at hA
  have hk : (acquired t).length ≤ 5 := by
    have := congrArg List.length hA
    simp at this
    omega
  generalize acquired t = A at *
  generalize A.length = k at *
  subst hA
  interval_cases k
  · refine ⟨by simp [released], fun r => by cases r <;> simp [released]⟩
  · refine ⟨by simp [released, Step.releases],
      fun r => by cases r <;> simp [released, Step.releases]⟩
  · refine ⟨by simp [released, Step.releases],
      fun r => by cases r <;> simp [released, Step.releases]⟩
  · cases hn : L.oformat_nofile <;>
    refine ⟨by simp [released, Step.releases],
      fun r => by cases r <;> simp [released, Step.releases]⟩
  · cases hn : L.oformat_nofile <;>
    refine ⟨by simp [released, Step.releases],
      fun r => by cases r <;> simp [released, Step.releases]⟩
  · have hn : L.oformat_nofile = false := hf (by simp)
    refine ⟨by simp [released, Step.releases, hn],
      fun r => by cases r <;> simp [released, Step.releases, hn]⟩

/-- C8: for non-null filenames, whatever the stage at which a failure occurs (or none),
each handle (input container, decoder context, output context, encoder context, output
file) is acquired at most once and is released as many times as it was acquired before
`convert_audio` returns: exactly once if it was acquired, never otherwise. -/
theorem convert_audio_releases_each_acquired_once (L : Lib) (inp out : String) (tc : Int)
    (r : Resource) :
    (acquired (convert_audio L (some inp) (some out) tc).trace).count r ≤ 1 ∧
    (released (convert_audio L (some inp) (some out) tc).trace).count r =
      (acquired (convert_audio L (some inp) (some out) tc).trace).count r ∧
    (r ∈ acquired (convert_audio L (some inp) (some out) tc).trace →
      (released (convert_audio L (some inp) (some out) tc).trace).count r = 1) := by
  obtain ⟨in_stream, out_codec, -, -, ht, -⟩ := convert_audio_run L inp out tc
  obtain ⟨hA, hR, hf⟩ := acquired_upto_first_failure L inp out tc in_stream out_codec
  obtain ⟨-, hcount⟩ := released_cleanup_calls L _ hA hf
  have hacq : acquired (convert_audio L (some inp) (some out) tc).trace =
      acquired (upto_first_failure (plan L inp out tc in_stream out_codec)) := by
    rw [ht]
    simp only [acquired, List.filterMap_append]
    have := (cleanup_calls_inert L (upto_first_failure (plan L inp out tc in_stream out_codec))).2
    simp only [acquired] at this
    rw [this, List.append_nil]
  have hrel : released (convert_audio L (some inp) (some out) tc).trace =
      released (cleanup_calls L (upto_first_failure (plan L inp out tc in_stream out_codec))) := by
    rw [ht]
    simp only [released, List.filterMap_append]
    simp only [released] at hR
    rw [hR, List.nil_append]
  rw [hacq, hrel]
  refine ⟨(hcount r).2, (hcount r).1, fun hmem => ?_⟩
  have hpos := List.count_pos_iff.mpr hmem
  have := (hcount r).2
  rw [(hcount r).1]
  omega

/-! ## Order of the steps -/

/-- When no `q`-step occurs before the first `p`-step of `t`, and none occurs in `c`, every
`q`-step of `t ++ c` has a `p`-step before it (`p` and `q` being exclusive) -/
theorem preceded_of_takeWhile (p q : Step → Bool) (t c : List Step)
    (hpq : ∀ e, q e = true → p e = false)
    (h1 : ∀ e ∈ t.takeWhile (fun d => !p d), q e = false)
    (h2 : ∀ e ∈ c, q e = false) :
    ∀ pre e post, t ++ c = pre ++ e :: post → q e = true → ∃ d ∈ pre, p d = true := by
  induction t with
  | nil =>
    intro pre e post h hq
    have : e ∈ c := by simp only [List.nil_append] at h; rw [h]; simp
    rw [h2 e this] at hq
    exact absurd hq (by decide)
  | cons a rest ih =>
    intro pre e post h hq
    cases pre with
    | nil =>
      simp only [List.nil_append, List.cons_append, List.cons.injEq] at h
      obtain ⟨rfl, -⟩ := h
      have := h1 a (by simp [List.takeWhile_cons, hpq a hq])
      rw [this] at hq
      exact absurd hq (by decide)
    | cons b pre =>
      simp only [List.cons_append, List.cons.injEq] at h
      obtain ⟨rfl, h⟩ := h
      by_cases hp : p a = true
      · exact ⟨a, by simp, hp⟩
      · have h1' : ∀ e ∈ rest.takeWhile (fun d => !p d), q e = false := by
          intro e he
          exact h1 e (by simp [List.takeWhile_cons, hp, he])
        obtain ⟨d, hd, hpd⟩ := ih h1' pre e post h hq
        exact ⟨d, by simp [hd], hpd⟩

/-- No call of `cleanup` writes a header or a trailer or opens the encoder -/
theorem cleanup_calls_no_output (L : Lib) (t : List Step) :
    ∀ e ∈ cleanup_calls L t, e.is_write_header = false ∧ e.is_write_trailer = false ∧
      e.is_open_encoder = false ∧ e.touches_output = false := by
  unfold cleanup_calls
  intro e he
  simp only [List.mem_append] at he
  rcases he with ((he | he) | he) | he
  all_goals split_ifs at he
  all_goals simp at he
  all_goals first
    | (subst he
       simp [Step.is_write_header, Step.is_write_trailer, Step.is_open_encoder,
         Step.touches_output])
    | (rcases he with rfl | rfl <;>
       simp [Step.is_write_header, Step.is_write_trailer, Step.is_open_encoder,
         Step.touches_output])

set_option maxHeartbeats 2000000 in
/-- Order of the steps of the body: the header is written at most once, after the output
stream was created and given the encoder parameters; the trailer at most once, after a
successful header; the encoder is opened after the thread count was set, with the
settings of the routine; and a body without a failed step writes header and trailer -/
theorem order_upto_first_failure (L : Lib) (inp out : String) (tc : Int)
    (in_stream : AVStream) (out_codec : AVCodec)
    (hc : ∀ c, L.avcodec_find_encoder AVCodecID.AV_CODEC_ID_AAC = some c → c = out_codec) :
    (upto_first_failure (plan L inp out tc in_stream out_codec)).countP Step.is_write_header ≤ 1 ∧
    (upto_first_failure (plan L inp out tc in_stream out_codec)).countP Step.is_write_trailer ≤ 1 ∧
    (∀ e ∈ (upto_first_failure (plan L inp out tc in_stream out_codec)).takeWhile
        (fun d => !d.is_stream_created), e.is_write_header = false) ∧
    (∀ e ∈ (upto_first_failure (plan L inp out tc in_stream out_codec)).takeWhile
        (fun d => !d.is_stream_declared), e.is_write_header = false) ∧
    (∀ e ∈ (upto_first_failure (plan L inp out tc in_stream out_codec)).takeWhile
        (fun d => !d.is_header_written), e.is_write_trailer = false) ∧
    (∀ e ∈ (upto_first_failure (plan L inp out tc in_stream out_codec)).takeWhile
        (fun d => !decide (d = set_thread_count CodecCtx.out_codec_ctx tc)),
        e.is_open_encoder = false) ∧
    (∀ codec ctx rc, Step.open_encoder codec ctx rc ∈
        upto_first_failure (plan L inp out tc in_stream out_codec) →
      L.avcodec_find_encoder AVCodecID.AV_CODEC_ID_AAC = some codec ∧
        ctx = encoder_settings L codec) ∧
    ((∀ e ∈ upto_first_failure (plan L inp out tc in_stream out_codec), e.failed = false) →
      (upto_first_failure (plan L inp out tc in_stream out_codec)).countP
          Step.is_write_header = 1 ∧
        (upto_first_failure (plan L inp out tc in_stream out_codec)).countP
          Step.is_write_trailer = 1) := by
  have hfind : (L.avcodec_find_encoder AVCodecID.AV_CODEC_ID_AAC).isSome = true →
      L.avcodec_find_encoder AVCodecID.AV_CODEC_ID_AAC = some out_codec := by
    intro h
    obtain ⟨c, hc'⟩ := Option.isSome_iff_exists.mp h
    rw [hc', hc c hc']
  obtain ⟨n, hn, hpos, hu, hok, hfail⟩ :=
    upto_first_failure_eq_take (plan L inp out tc in_stream out_codec)
  rw [hu]
  cases hnf : L.oformat_nofile <;>
  simp only [plan, hnf, if_true, if_false, List.cons_append, List.nil_append,
    Bool.false_eq_true, List.length_cons, List.length_nil] at hn hpos hok hfail ⊢ <;>
  interval_cases n <;>
  simp only [List.take_succ_cons, List.take_zero, List.mem_cons, List.not_mem_nil,
    forall_eq_or_imp, Step.failed, set_thread_count, decide_eq_false_iff_not, not_lt,
    Bool.not_eq_false', or_false, false_or, Nat.reduceSub, Nat.reduceAdd, Nat.reduceLT,
    forall_eq, IsEmpty.forall_iff, implies_true, and_true, true_and,
    List.getElem?_cons_succ, List.getElem?_cons_zero, Option.some.injEq, exists_eq_left',
    decide_eq_true_eq, Bool.not_eq_true', forall_const, Nat.lt_irrefl, false_implies,
    Nat.reduceLeDiff, Bool.not_eq_eq_eq_not, Bool.not_true, Bool.not_false,
    Bool.false_eq_true] at hpos hok hfail <;>
  simp [List.takeWhile, List.countP_cons, Step.is_write_header, Step.is_write_trailer,
    Step.is_stream_created, Step.is_stream_declared, Step.is_header_written,
    Step.is_open_encoder, Step.failed, set_thread_count, hok, hfail, hfind, not_le.mpr] <;>
  (intro codec ctx rc h1 h2 _; subst h1; exact ⟨rfl, h2⟩)

/-! ## The thread count -/

/-- The rendering of a 32-bit `int` has at most eleven characters -/
theorem fmt_d_length (n : Int) (h1 : -2147483648 ≤ n) (h2 : n ≤ 2147483647) :
    (fmt_d n).length ≤ 11 := by
  have hd : (Nat.toDigits 10 n.natAbs).length ≤ 10 := by
    have := Nat.repr_length n.natAbs 10 (by decide) (by omega)
    simpa [Nat.repr, List.asString] using this
  unfold fmt_d
  split_ifs
  · simpa using hd
  · omega

/-- The 32-byte buffer of `set_thread_count` holds the complete rendering of every 32-bit
thread count -/
theorem set_thread_count_complete (codec_ctx : CodecCtx) (tc : Int)
    (h1 : -2147483648 ≤ tc) (h2 : tc ≤ 2147483647) :
    set_thread_count codec_ctx tc =
      Step.av_opt_set codec_ctx "threads" (String.mk (fmt_d tc)) := by
  have := fmt_d_length tc h1 h2
  simp only [set_thread_count, snprintf_d]
  rw [List.take_of_length_le (by omega)]

/-! ## The claims on the order of the steps and on the encoder -/

/-- Every step of a list cut at its first failure is a step of the list, and the cut list
has no more steps of a kind than the list -/
theorem upto_first_failure_sublist (p : List Step) :
    (∀ e ∈ upto_first_failure p, e ∈ p) ∧
    ∀ q : Step → Bool, (upto_first_failure p).countP q ≤ p.countP q := by
  obtain ⟨n, -, -, hu, -, -⟩ := upto_first_failure_eq_take p
  rw [hu]
  exact ⟨fun e he => List.mem_of_mem_take he, fun q => (List.take_sublist n p).countP_le q⟩

/-- No call of `cleanup` is a call of `av_opt_set` -/
theorem cleanup_calls_no_option (L : Lib) (t : List Step) :
    ∀ e ∈ cleanup_calls L t, e.is_av_opt_set = false := by
  unfold cleanup_calls
  intro e he
  simp only [List.mem_append] at he
  rcases he with ((he | he) | he) | he
  all_goals split_ifs at he
  all_goals simp at he
  all_goals first
    | (subst he; rfl)
    | (rcases he with rfl | rfl <;> rfl)

/-- The only call of `av_opt_set` in the plan is the one `set_thread_count` issues on the
encoder context -/
theorem plan_options (L : Lib) (inp out : String) (tc : Int)
    (in_stream : AVStream) (out_codec : AVCodec) :
    (∀ e ∈ plan L inp out tc in_stream out_codec, e.is_av_opt_set = true →
      e = set_thread_count CodecCtx.out_codec_ctx tc) ∧
    (plan L inp out tc in_stream out_codec).countP Step.is_av_opt_set = 1 := by
  cases hnf : L.oformat_nofile <;>
    simp [plan, hnf, Step.is_av_opt_set, set_thread_count, List.countP_cons]

set_option maxHeartbeats 2000000 in
/-- Along the steps of the body no option is set before the encoder context has been
allocated -/
theorem option_upto_first_failure (L : Lib) (inp out : String) (tc : Int)
    (in_stream : AVStream) (out_codec : AVCodec) :
    ∀ e ∈ (upto_first_failure (plan L inp out tc in_stream out_codec)).takeWhile
        (fun d => !d.is_encoder_allocated), e.is_av_opt_set = false := by
  obtain ⟨n, hn, hpos, hu, hok, hfail⟩ :=
    upto_first_failure_eq_take (plan L inp out tc in_stream out_codec)
  rw [hu]
  cases hnf : L.oformat_nofile <;>
  simp only [plan, hnf, if_true, if_false, List.cons_append, List.nil_append,
    Bool.false_eq_true, List.length_cons, List.length_nil] at hn hpos hok hfail ⊢ <;>
  interval_cases n <;>
  simp only [List.take_succ_cons, List.take_zero, List.mem_cons, List.not_mem_nil,
    forall_eq_or_imp, Step.failed, set_thread_count, decide_eq_false_iff_not, not_lt,
    Bool.not_eq_false', or_false, false_or, Nat.reduceSub, Nat.reduceAdd, Nat.reduceLT,
    forall_eq, IsEmpty.forall_iff, implies_true, and_true, true_and,
    List.getElem?_cons_succ, List.getElem?_cons_zero, Option.some.injEq, exists_eq_left',
    decide_eq_true_eq, Bool.not_eq_true', forall_const, Nat.lt_irrefl, false_implies,
    Nat.reduceLeDiff, Bool.not_eq_eq_eq_not, Bool.not_true, Bool.not_false,
    Bool.false_eq_true] at hpos hok hfail <;>
  simp [List.takeWhile, Step.is_av_opt_set, Step.is_encoder_allocated, set_thread_count,
    hok, hfail]

/-- For non-null filenames: the encoder opened is the one found for `AV_CODEC_ID_AAC`, with
a bit rate of 64000; the thread count was set before on the encoder context, after its
allocation, with its complete rendering; and no other option is set -/
theorem encoder_configuration_of_filenames (L : Lib) (inp out : String) (tc : Int)
    (h1 : -2147483648 ≤ tc) (h2 : tc ≤ 2147483647) :
    (∀ codec ctx rc,
      Step.open_encoder codec ctx rc ∈ (convert_audio L (some inp) (some out) tc).trace →
        L.avcodec_find_encoder AVCodecID.AV_CODEC_ID_AAC = some codec ∧
        ctx.bit_rate = 64000) ∧
    (∀ pre e post, (convert_audio L (some inp) (some out) tc).trace = pre ++ e :: post →
      e.is_open_encoder = true →
        Step.av_opt_set CodecCtx.out_codec_ctx "threads" (String.mk (fmt_d tc)) ∈ pre) ∧
    (∀ codec_ctx name value,
      Step.av_opt_set codec_ctx name value ∈
          (convert_audio L (some inp) (some out) tc).trace →
        codec_ctx = CodecCtx.out_codec_ctx ∧ name = "threads" ∧
        value = String.mk (fmt_d tc)) ∧
    (convert_audio L (some inp) (some out) tc).trace.countP Step.is_av_opt_set ≤ 1 ∧
    (∀ pre e post, (convert_audio L (some inp) (some out) tc).trace = pre ++ e :: post →
      e.is_av_opt_set = true → Step.alloc_encoder_context true ∈ pre) := by
  obtain ⟨in_stream, out_codec, -, hc, ht, -⟩ := convert_audio_run L inp out tc
  obtain ⟨-, -, -, -, -, hopt, henc, -⟩ :=
    order_upto_first_failure L inp out tc in_stream out_codec hc
  have hcc := cleanup_calls_no_output L
    (upto_first_failure (plan L inp out tc in_stream out_codec))
  have hco := cleanup_calls_no_option L
    (upto_first_failure (plan L inp out tc in_stream out_codec))
  obtain ⟨hsub, hcount⟩ :=
    upto_first_failure_sublist (plan L inp out tc in_stream out_codec)
  obtain ⟨hplan, hplan1⟩ := plan_options L inp out tc in_stream out_codec
  have halloc := option_upto_first_failure L inp out tc in_stream out_codec
  rw [ht]
  refine ⟨?_, ?_, ?_, ?_, ?_⟩
  · intro codec ctx rc hmem
    rcases List.mem_append.mp hmem with hmem | hmem
    · obtain ⟨hf, rfl⟩ := henc codec ctx rc hmem
      exact ⟨hf, rfl⟩
    · have := (hcc _ hmem).2.2.1
      simp [Step.is_open_encoder] at this
  · intro pre e post hsplit he
    obtain ⟨d, hd, hp⟩ := preceded_of_takeWhile
      (fun d => decide (d = set_thread_count CodecCtx.out_codec_ctx tc))
      Step.is_open_encoder _ _
      (by
        intro e he
        cases e <;> simp [Step.is_open_encoder, set_thread_count] at he ⊢)
      hopt (fun e he => (hcc e he).2.2.1) pre e post hsplit he
    have hd' : d = set_thread_count CodecCtx.out_codec_ctx tc := by simpa using hp
    rw [hd', set_thread_count_complete _ tc h1 h2] at hd
    exact hd
  · intro codec_ctx name value hmem
    rcases List.mem_append.mp hmem with hmem | hmem
    · have := hplan _ (hsub _ hmem) rfl
      rw [set_thread_count_complete _ tc h1 h2] at this
      simpa using this
    · have := hco _ hmem
      simp [Step.is_av_opt_set] at this
  · have hz : (cleanup_calls L (upto_first_failure
        (plan L inp out tc in_stream out_codec))).countP Step.is_av_opt_set = 0 :=
      List.countP_eq_zero.mpr (fun e he => by simp [hco e he])
    rw [List.countP_append, hz, Nat.add_zero]
    exact hplan1 ▸ hcount Step.is_av_opt_set
  · intro pre e post hsplit he
    obtain ⟨d, hd, hp⟩ := preceded_of_takeWhile Step.is_encoder_allocated
      Step.is_av_opt_set _ _
      (by
        intro e he
        cases e <;> simp [Step.is_av_opt_set, Step.is_encoder_allocated] at he ⊢)
      halloc hco pre e post hsplit he
    have hd' : d = Step.alloc_encoder_context true := by
      cases d <;> simp [Step.is_encoder_allocated] at hp ⊢
      exact hp
    rw [hd'] at hd
    exact hd

/-- C6: on every run that reaches the opening of the encoder, the encoder opened is the one
`avcodec_find_encoder` returned for `AV_CODEC_ID_AAC`, its bit rate is 64000, and before
it is opened `av_opt_set` was called on the encoder context `out_codec_ctx` for the option
`threads` with the complete decimal rendering of `thread_count`, for every 32-bit
`thread_count`.  That call is the only call of `av_opt_set` of the run (no option is set
on another context, and none overrides it), and it follows the allocation of the encoder
context. -/
theorem convert_audio_encoder_configuration (L : Lib)
    (input_filename output_filename : Option String) (tc : Int)
    (h1 : -2147483648 ≤ tc) (h2 : tc ≤ 2147483647) :
    (∀ codec ctx rc,
      Step.open_encoder codec ctx rc ∈
          (convert_audio L input_filename output_filename tc).trace →
        L.avcodec_find_encoder AVCodecID.AV_CODEC_ID_AAC = some codec ∧
        ctx.bit_rate = 64000) ∧
    (∀ pre e post,
      (convert_audio L input_filename output_filename tc).trace = pre ++ e :: post →
      e.is_open_encoder = true →
        Step.av_opt_set CodecCtx.out_codec_ctx "threads" (String.mk (fmt_d tc)) ∈ pre) ∧
    (∀ codec_ctx name value,
      Step.av_opt_set codec_ctx name value ∈
          (convert_audio L input_filename output_filename tc).trace →
        codec_ctx = CodecCtx.out_codec_ctx ∧ name = "threads" ∧
        value = String.mk (fmt_d tc)) ∧
    (convert_audio L input_filename output_filename tc).trace.countP
        Step.is_av_opt_set ≤ 1 ∧
    (∀ pre e post,
      (convert_audio L input_filename output_filename tc).trace = pre ++ e :: post →
      e.is_av_opt_set = true → Step.alloc_encoder_context true ∈ pre) := by
  rcases input_filename with _ | inp
  · rw [convert_audio_of_null L _ _ tc (Or.inl rfl)]
    exact ⟨fun _ _ _ h => by simp at h, fun pre e post h => by simp at h,
      fun _ _ _ h => by simp at h, by simp, fun pre e post h => by simp at h⟩
  rcases output_filename with _ | out
  · rw [convert_audio_of_null L _ _ tc (Or.inr rfl)]
    exact ⟨fun _ _ _ h => by simp at h, fun pre e post h => by simp at h,
      fun _ _ _ h => by simp at h, by simp, fun pre e post h => by simp at h⟩
  exact encoder_configuration_of_filenames L inp out tc h1 h2

/-- C6 at a thread count of 4 with a library in which every call succeeds -/
theorem convert_audio_encoder_configuration_witness :
    ((-2147483648 : Int) ≤ 4 ∧ (4 : Int) ≤ 2147483647) ∧
    ((∀ codec ctx rc,
      Step.open_encoder codec ctx rc ∈
          (convert_audio lib_ok (some "in.mp3") (some "out.m4a") 4).trace →
        lib_ok.avcodec_find_encoder AVCodecID.AV_CODEC_ID_AAC = some codec ∧
        ctx.bit_rate = 64000) ∧
    (∀ pre e post,
      (convert_audio lib_ok (some "in.mp3") (some "out.m4a") 4).trace = pre ++ e :: post →
      e.is_open_encoder = true →
        Step.av_opt_set CodecCtx.out_codec_ctx "threads" (String.mk (fmt_d 4)) ∈ pre) ∧
    (∀ codec_ctx name value,
      Step.av_opt_set codec_ctx name value ∈
          (convert_audio lib_ok (some "in.mp3") (some "out.m4a") 4).trace →
        codec_ctx = CodecCtx.out_codec_ctx ∧ name = "threads" ∧
        value = String.mk (fmt_d 4)) ∧
    (convert_audio lib_ok (some "in.mp3") (some "out.m4a") 4).trace.countP
        Step.is_av_opt_set ≤ 1 ∧
    (∀ pre e post,
      (convert_audio lib_ok (some "in.mp3") (some "out.m4a") 4).trace = pre ++ e :: post →
      e.is_av_opt_set = true → Step.alloc_encoder_context true ∈ pre)) :=
  ⟨⟨by decide, by decide⟩,
    convert_audio_encoder_configuration lib_ok (some "in.mp3") (some "out.m4a") 4
      (by decide) (by decide)⟩

/-- C2, the input on which it fails: with a null input filename the routine returns -1,
which is neither 0 nor 1 -/
theorem convert_audio_null_filename_status :
    ¬ ((convert_audio lib_ok none (some "out.m4a") 4).ret = 0 ∨
       (convert_audio lib_ok none (some "out.m4a") 4).ret = 1) := by
  decide

/-- C2 as amended: the exit status is 0 or 1 whenever both filenames are non-null, and is
-1 whenever one of them is null, for every thread count and every outcome of the library
calls. -/
theorem convert_audio_status_values (L : Lib) (inp out : String)
    (input_filename output_filename : Option String) (tc : Int) :
    ((convert_audio L (some inp) (some out) tc).ret = 0 ∨
      (convert_audio L (some inp) (some out) tc).ret = 1) ∧
    (convert_audio L none output_filename tc).ret = -1 ∧
    (convert_audio L input_filename none tc).ret = -1 := by
  refine ⟨?_, rfl, ?_⟩
  · show (cleanup L (convert_audio_body L inp out tc)).finish.ret = 0 ∨
      (cleanup L (convert_audio_body L inp out tc)).finish.ret = 1
    unfold Locals.finish
    by_cases h : (cleanup L (convert_audio_body L inp out tc)).ret < 0
    · right; simp only [if_pos h]
    · left; simp only [if_neg h]
  · cases input_filename <;> rfl

/-- A stream list without an audio stream leaves `stream_index` at -1 -/
theorem find_audio_stream_of_no_audio (streams : List AVStream)
    (h : ∀ st ∈ streams, st.codec_type ≠ AVMediaType.AVMEDIA_TYPE_AUDIO) :
    find_audio_stream streams = -1 := by
  rcases find_audio_stream_from_cases streams 0 (-1) with ⟨h1, -⟩ | ⟨i, st, h1, h2, -, -⟩
  · exact h1
  · exact absurd h2 (h st (List.getElem?_mem h1))

/-- C4: when the input opens and is probed but has no audio stream, `convert_audio`
returns 1 after the steps open, probe, selection and the closing of the input: the output
context is never allocated, the output file never opened, no header or trailer written.
(The error macros of the library are negative.) -/
theorem convert_audio_no_audio_stream (L : Lib) (inp out : String) (tc : Int)
    (hE : L.errors_negative) (h_open : 0 ≤ L.avformat_open_input)
    (h_probe : 0 ≤ L.avformat_find_stream_info)
    (h_none : ∀ st ∈ L.streams, st.codec_type ≠ AVMediaType.AVMEDIA_TYPE_AUDIO) :
    (convert_audio L (some inp) (some out) tc).ret = 1 ∧
    (convert_audio L (some inp) (some out) tc).trace =
      [Step.avformat_open_input inp L.avformat_open_input,
       Step.avformat_find_stream_info L.avformat_find_stream_info,
       Step.select_audio_stream (-1),
       Step.avformat_close_input] ∧
    ∀ e ∈ (convert_audio L (some inp) (some out) tc).trace, e.touches_output = false := by
  obtain ⟨in_stream, out_codec, -, -, ht, hret⟩ := convert_audio_run L inp out tc
  have hsel := find_audio_stream_of_no_audio L.streams h_none
  have hu : upto_first_failure (plan L inp out tc in_stream out_codec) =
      [Step.avformat_open_input inp L.avformat_open_input,
       Step.avformat_find_stream_info L.avformat_find_stream_info,
       Step.select_audio_stream (-1)] := by
    simp [plan, upto_first_failure, Step.failed, hsel, not_lt.mpr h_open, not_lt.mpr h_probe]
  have htrace : (convert_audio L (some inp) (some out) tc).trace =
      [Step.avformat_open_input inp L.avformat_open_input,
       Step.avformat_find_stream_info L.avformat_find_stream_info,
       Step.select_audio_stream (-1),
       Step.avformat_close_input] := by
    rw [ht, hu]
    simp [cleanup_calls, acquired, Step.acquires, h_open]
  refine ⟨?_, htrace, ?_⟩
  · rw [hret hE, hu, if_pos]
    exact ⟨Step.select_audio_stream (-1), by simp, by simp [Step.failed]⟩
  · rw [htrace]
    intro e he
    simp only [List.mem_cons, List.not_mem_nil, or_false] at he
    rcases he with rfl | rfl | rfl | rfl <;> rfl

/-- C4 on a video-only input -/
theorem convert_audio_no_audio_stream_witness :
    (lib_video_only.errors_negative ∧ 0 ≤ lib_video_only.avformat_open_input ∧
      0 ≤ lib_video_only.avformat_find_stream_info ∧
      ∀ st ∈ lib_video_only.streams, st.codec_type ≠ AVMediaType.AVMEDIA_TYPE_AUDIO) ∧
    ((convert_audio lib_video_only (some "in.mp4") (some "out.m4a") 4).ret = 1 ∧
    (convert_audio lib_video_only (some "in.mp4") (some "out.m4a") 4).trace =
      [Step.avformat_open_input "in.mp4" lib_video_only.avformat_open_input,
       Step.avformat_find_stream_info lib_video_only.avformat_find_stream_info,
       Step.select_audio_stream (-1),
       Step.avformat_close_input] ∧
    ∀ e ∈ (convert_audio lib_video_only (some "in.mp4") (some "out.m4a") 4).trace,
      e.touches_output = false) :=
  ⟨⟨by decide, by decide, by decide, by decide⟩,
    convert_audio_no_audio_stream lib_video_only "in.mp4" "out.m4a" 4
      (by decide) (by decide) (by decide) (by decide)⟩

/-- C5, the input on which it fails: for an AAC encoder whose `sample_fmts` array is
present but holds the terminator only, the routine opens the encoder with
`AV_SAMPLE_FMT_NONE`, not with planar float -/
theorem convert_audio_empty_sample_fmts :
    ∃ codec ctx rc,
      Step.open_encoder codec ctx rc ∈
        (convert_audio lib_empty_fmts (some "in.mp3") (some "out.m4a") 4).trace ∧
      codec.sample_fmts = some [] ∧
      ctx.sample_fmt = AVSampleFormat.AV_SAMPLE_FMT_NONE ∧
      ctx.sample_fmt ≠ AVSampleFormat.AV_SAMPLE_FMT_FLTP :=
  ⟨⟨some []⟩, ⟨AVSampleFormat.AV_SAMPLE_FMT_NONE, 64000, 44100, 2⟩, 0,
    by decide, rfl, rfl, by decide⟩

/-- For non-null filenames: the encoder is opened with the first entry of its `sample_fmts`
array when the array is present, with planar float when it is absent -/
theorem sample_fmt_of_filenames (L : Lib) (inp out : String) (tc : Int)
    (codec : AVCodec) (ctx : AVCodecContext) (rc : Int)
    (h : Step.open_encoder codec ctx rc ∈ (convert_audio L (some inp) (some out) tc).trace) :
    L.avcodec_find_encoder AVCodecID.AV_CODEC_ID_AAC = some codec ∧
    (∀ f rest, codec.sample_fmts = some (f :: rest) → ctx.sample_fmt = f) ∧
    (codec.sample_fmts = none → ctx.sample_fmt = AVSampleFormat.AV_SAMPLE_FMT_FLTP) ∧
    (codec.sample_fmts = some [] → ctx.sample_fmt = AVSampleFormat.AV_SAMPLE_FMT_NONE) := by
  obtain ⟨in_stream, out_codec, -, hc, ht, -⟩ := convert_audio_run L inp out tc
  obtain ⟨-, -, -, -, -, -, henc, -⟩ :=
    order_upto_first_failure L inp out tc in_stream out_codec hc
  have hcc := cleanup_calls_no_output L
    (upto_first_failure (plan L inp out tc in_stream out_codec))
  rw [ht] at h
  rcases List.mem_append.mp h with h | h
  · obtain ⟨hf, rfl⟩ := henc codec ctx rc h
    refine ⟨hf, ?_, ?_, ?_⟩
    · intro f rest hs
      simp [encoder_settings, select_sample_fmt, hs]
    · intro hs
      simp [encoder_settings, select_sample_fmt, hs]
    · intro hs
      simp [encoder_settings, select_sample_fmt, hs]
  · have := (hcc _ h).2.2.1
    simp [Step.is_open_encoder] at this

/-- C5 as amended: the sample format set on the encoder context is the first entry of the
encoder's `sample_fmts` array whenever the array is present (the first advertised format
when there is one, the terminator `AV_SAMPLE_FMT_NONE` when the array is empty), and
planar float when the array is absent. -/
theorem convert_audio_sample_fmt (L : Lib) (input_filename output_filename : Option String)
    (tc : Int) (codec : AVCodec) (ctx : AVCodecContext) (rc : Int)
    (h : Step.open_encoder codec ctx rc ∈
      (convert_audio L input_filename output_filename tc).trace) :
    L.avcodec_find_encoder AVCodecID.AV_CODEC_ID_AAC = some codec ∧
    (∀ f rest, codec.sample_fmts = some (f :: rest) → ctx.sample_fmt = f) ∧
    (codec.sample_fmts = none → ctx.sample_fmt = AVSampleFormat.AV_SAMPLE_FMT_FLTP) ∧
    (codec.sample_fmts = some [] → ctx.sample_fmt = AVSampleFormat.AV_SAMPLE_FMT_NONE) := by
  rcases input_filename with _ | inp
  · rw [convert_audio_of_null L _ _ tc (Or.inl rfl)] at h
    simp at h
  rcases output_filename with _ | out
  · rw [convert_audio_of_null L _ _ tc (Or.inr rfl)] at h
    simp at h
  exact sample_fmt_of_filenames L inp out tc codec ctx rc h

/-- C5 as amended, on the encoder of `lib_ok`, which advertises planar float first -/
theorem convert_audio_sample_fmt_witness :
    Step.open_encoder ⟨some [AVSampleFormat.AV_SAMPLE_FMT_FLTP]⟩
        ⟨AVSampleFormat.AV_SAMPLE_FMT_FLTP, 64000, 44100, 2⟩ 0 ∈
      (convert_audio lib_ok (some "in.mp3") (some "out.m4a") 4).trace ∧
    (lib_ok.avcodec_find_encoder AVCodecID.AV_CODEC_ID_AAC =
        some ⟨some [AVSampleFormat.AV_SAMPLE_FMT_FLTP]⟩ ∧
    (∀ f rest, (⟨some [AVSampleFormat.AV_SAMPLE_FMT_FLTP]⟩ : AVCodec).sample_fmts =
        some (f :: rest) →
      (⟨AVSampleFormat.AV_SAMPLE_FMT_FLTP, 64000, 44100, 2⟩ : AVCodecContext).sample_fmt = f) ∧
    ((⟨some [AVSampleFormat.AV_SAMPLE_FMT_FLTP]⟩ : AVCodec).sample_fmts = none →
      (⟨AVSampleFormat.AV_SAMPLE_FMT_FLTP, 64000, 44100, 2⟩ : AVCodecContext).sample_fmt =
        AVSampleFormat.AV_SAMPLE_FMT_FLTP) ∧
    ((⟨some [AVSampleFormat.AV_SAMPLE_FMT_FLTP]⟩ : AVCodec).sample_fmts = some [] →
      (⟨AVSampleFormat.AV_SAMPLE_FMT_FLTP, 64000, 44100, 2⟩ : AVCodecContext).sample_fmt =
        AVSampleFormat.AV_SAMPLE_FMT_NONE)) :=
  ⟨by decide,
    convert_audio_sample_fmt lib_ok (some "in.mp3") (some "out.m4a") 4
      ⟨some [AVSampleFormat.AV_SAMPLE_FMT_FLTP]⟩
      ⟨AVSampleFormat.AV_SAMPLE_FMT_FLTP, 64000, 44100, 2⟩ 0 (by decide)⟩

/-- C9, the input on which it fails: when every call succeeds the handles are released in
the order decoder context, encoder context, input container, output file, output
context, which is not the reverse of the order of acquisition -/
theorem convert_audio_release_order_not_reverse :
    released (convert_audio lib_ok (some "in.mp3") (some "out.m4a") 4).trace =
      [Resource.decoder_context, Resource.encoder_context, Resource.input_container,
       Resource.output_file, Resource.output_context] ∧
    acquired (convert_audio lib_ok (some "in.mp3") (some "out.m4a") 4).trace =
      [Resource.input_container, Resource.decoder_context, Resource.output_context,
       Resource.encoder_context, Resource.output_file] ∧
    released (convert_audio lib_ok (some "in.mp3") (some "out.m4a") 4).trace ≠
      (acquired (convert_audio lib_ok (some "in.mp3") (some "out.m4a") 4).trace).reverse := by
  decide

/-- For non-null filenames: the handles acquired are released in the order of the `cleanup`
block, after the last acquisition -/
theorem release_order_of_filenames (L : Lib) (inp out : String) (tc : Int) :
    released (convert_audio L (some inp) (some out) tc).trace =
      [Resource.decoder_context, Resource.encoder_context, Resource.input_container,
       Resource.output_file, Resource.output_context].filter
        (fun r => r ∈ acquired (convert_audio L (some inp) (some out) tc).trace) ∧
    acquired (convert_audio L (some inp) (some out) tc).trace <+:
      [Resource.input_container, Resource.decoder_context, Resource.output_context,
       Resource.encoder_context, Resource.output_file] ∧
    ∃ body calls, (convert_audio L (some inp) (some out) tc).trace = body ++ calls ∧
      released body = [] ∧ acquired calls = [] := by
  obtain ⟨in_stream, out_codec, -, -, ht, -⟩ := convert_audio_run L inp out tc
  obtain ⟨hA, hR, hf⟩ := acquired_upto_first_failure L inp out tc in_stream out_codec
  obtain ⟨hrel, -⟩ := released_cleanup_calls L _ hA hf
  have hin := (cleanup_calls_inert L
    (upto_first_failure (plan L inp out tc in_stream out_codec))).2
  have hacq : acquired (convert_audio L (some inp) (some out) tc).trace =
      acquired (upto_first_failure (plan L inp out tc in_stream out_codec)) := by
    rw [ht]
    simp only [acquired, List.filterMap_append]
    simp only [acquired] at hin
    rw [hin, List.append_nil]
  have hrel' : released (convert_audio L (some inp) (some out) tc).trace =
      released (cleanup_calls L (upto_first_failure (plan L inp out tc in_stream out_codec))) := by
    rw [ht]
    simp only [released, List.filterMap_append]
    simp only [released] at hR
    rw [hR, List.nil_append]
  refine ⟨?_, ?_, _, _, ht, hR, hin⟩
  · rw [hacq, hrel', hrel]
  · rw [hacq]; exact hA

/-- C9 as amended: on every run the handles that were acquired are released in the fixed
order of the `cleanup` block (decoder context, encoder context, input container, output
file, output context), after the last acquisition; they are acquired in the order input
container, decoder context, output context, encoder context, output file. -/
theorem convert_audio_release_order (L : Lib)
    (input_filename output_filename : Option String) (tc : Int) :
    released (convert_audio L input_filename output_filename tc).trace =
      [Resource.decoder_context, Resource.encoder_context, Resource.input_container,
       Resource.output_file, Resource.output_context].filter
        (fun r => r ∈ acquired (convert_audio L input_filename output_filename tc).trace) ∧
    acquired (convert_audio L input_filename output_filename tc).trace <+:
      [Resource.input_container, Resource.decoder_context, Resource.output_context,
       Resource.encoder_context, Resource.output_file] ∧
    ∃ body calls, (convert_audio L input_filename output_filename tc).trace = body ++ calls ∧
      released body = [] ∧ acquired calls = [] := by
  rcases input_filename with _ | inp
  · rw [convert_audio_of_null L _ _ tc (Or.inl rfl)]
    exact ⟨by simp [released, acquired], by simp [acquired], [], [], rfl, rfl, rfl⟩
  rcases output_filename with _ | out
  · rw [convert_audio_of_null L _ _ tc (Or.inr rfl)]
    exact ⟨by simp [released, acquired], by simp [acquired], [], [], rfl, rfl, rfl⟩
  exact release_order_of_filenames L inp out tc

/-- C10, the run on an input with audio packets when every call succeeds: the routine
returns 0 and the trailer is written right after the header; no packet is read, decoded,
encoded or written -/
theorem convert_audio_writes_no_packet :
    (∃ p ∈ lib_ok.packets, (p.stream_index : Int) = find_audio_stream lib_ok.streams) ∧
    convert_audio lib_ok (some "in.mp3") (some "out.m4a") 4 =
      { ret := 0,
        trace :=
          [Step.avformat_open_input "in.mp3" 0,
           Step.avformat_find_stream_info 0,
           Step.select_audio_stream 1,
           Step.avcodec_find_decoder (AVCodecID.other 86017) true,
           Step.alloc_decoder_context true,
           Step.avcodec_parameters_to_context 0,
           Step.open_decoder 0,
           Step.avformat_alloc_output_context2 "out.m4a" 0,
           Step.avformat_new_stream true,
           Step.avcodec_find_encoder AVCodecID.AV_CODEC_ID_AAC true,
           Step.alloc_encoder_context true,
           Step.av_opt_set CodecCtx.out_codec_ctx "threads" "4",
           Step.open_encoder ⟨some [AVSampleFormat.AV_SAMPLE_FMT_FLTP]⟩
             ⟨AVSampleFormat.AV_SAMPLE_FMT_FLTP, 64000, 44100, 2⟩ 0,
           Step.avcodec_parameters_from_context 0,
           Step.avio_open "out.m4a" 0,
           Step.avformat_write_header 0,
           Step.av_write_trailer 0,
           Step.free_decoder_context,
           Step.free_encoder_context,
           Step.avformat_close_input,
           Step.avio_closep true,
           Step.avformat_free_context] } := by
  constructor
  · exact ⟨⟨1⟩, by decide, by decide⟩
  · decide

end AudioConverter
